import Mathlib

/-
Shallow embedding of the CorrAI_quantlab backtesting core
(src/src/backtest.cpp, src/include/backtest.h).

C++ `double` is modelled as `ℚ` (exact arithmetic); `std::vector` as `List`;
the open-position vector as `List Trade`; the fallible post-loop access
`prices[dataSize - 1]` as `List.get?`, so the whole run returns `Option`.
`DateTime` values are dropped: the engine only reads them to stamp
`entryTime`/`exitTime`, which no verified property mentions; the dates
vector enters the embedding only through its length (used by the
constructor's size check).
-/

namespace Backtest

/-- `TradeType` from backtest.h. -/
inductive TradeType where
  | long
  | short
  | longShort
deriving DecidableEq, Repr

/-- `SignalPriorityMode` from backtest.h. -/
inductive SignalPriorityMode where
  | exitFirst
  | entryFirst
  | sameBarTrade
deriving DecidableEq, Repr

/-- `ExitReason` from backtest.h (`NONE` is rendered `noExit`). -/
inductive ExitReason where
  | takeProfit
  | stopLoss
  | exitSignal
  | maxHoldingPeriod
  | forceExit
  | noExit
deriving DecidableEq, Repr

/-- `exitReasonToString`, backtest.cpp lines 10-25. -/
def exitReasonToString : ExitReason → String
  | ExitReason.takeProfit => "Take Profit"
  | ExitReason.stopLoss => "Stop Loss"
  | ExitReason.exitSignal => "Exit Signal"
  | ExitReason.maxHoldingPeriod => "Max Holding Period Reached"
  | ExitReason.forceExit => "Force Exit due to Negative Capital"
  | ExitReason.noExit => "Unknown"

/-- ASCII lower-casing of `std::transform(..., ::tolower)` (backtest.cpp
lines 29-30), written over the character list (equivalent to
`String.toLower`, but in a form the kernel can evaluate). -/
def strToLower (s : String) : String := String.mk (s.data.map Char.toLower)

/-- `Backtest::parseTradeType`, backtest.cpp lines 28-42: lower-cases the
input, unknown strings fall through to `LONG`. -/
def parseTradeType (type : String) : TradeType :=
  let lowerType := strToLower type
  if lowerType = "long" then TradeType.long
  else if lowerType = "short" then TradeType.short
  else if lowerType = "long_short" then TradeType.longShort
  else TradeType.long

/-- `Backtest::parseSignalPriorityMode`, backtest.cpp lines 45-54 (no
lower-casing in the source); unknown strings default to `EXIT_FIRST`. -/
def parseSignalPriorityMode (mode : String) : SignalPriorityMode :=
  if mode = "entry_first" then SignalPriorityMode.entryFirst
  else if mode = "same_bar_trade" then SignalPriorityMode.sameBarTrade
  else SignalPriorityMode.exitFirst

/-- `Backtest::getPeriodsPerYear`, backtest.cpp lines 188-201; unknown
timeframe strings default to 365. -/
def getPeriodsPerYear (interval : String) : Int :=
  if interval = "1d" then 365
  else if interval = "1h" then 365 * 24
  else if interval = "4h" then 365 * 6
  else if interval = "30m" then 365 * 48
  else if interval = "15m" then 365 * 96
  else if interval = "5m" then 365 * 288
  else if interval = "1m" then 365 * 1440
  else 365

/-- The member state a `Backtest` keeps after construction (backtest.h
lines 166-178). `minHolding`/`maxHolding` are C++ `int`, kept as `Int`;
`maxPositions` is only ever compared after a cast to `size_t`, modelled
for the non-negative range as `Nat`. -/
structure Config where
  tradeType : TradeType
  startFund : ℚ
  eachTrade : ℚ
  tradeFees : ℚ
  tpStop : ℚ
  slStop : ℚ
  minHolding : Int
  maxHolding : Int
  slippagePct : ℚ
  maxPositions : Nat
  forceCloseAtEnd : Bool
  signalPriority : SignalPriorityMode
deriving DecidableEq, Repr

/-- `Trade` from backtest.h lines 64-87, restricted to the fields the
engine writes or reads (`tradeReturn`, `positionType`, `position`,
`signal` are never touched by backtest.cpp and are omitted, as are the
`DateTime` stamps). Defaults mirror the C++ member initialisers. -/
structure Trade where
  entryIndex : Nat := 0
  entryPrice : ℚ := 0
  quantity : ℚ := 0
  entryFee : ℚ := 0
  entryInvestment : ℚ := 0
  direction : String := ""
  currentValue : ℚ := 0
  exitIndex : Nat := 0
  exitPrice : ℚ := 0
  exitFee : ℚ := 0
  exitValue : ℚ := 0
  profit : ℚ := 0
  profitPct : ℚ := 0
  exitReason : String := ""
deriving DecidableEq, Repr

/-- Single-signal constructor `Backtest::Backtest` (backtest.cpp lines
62-115): member initialisers always run (enum parsing cannot fail), then
the body throws `std::invalid_argument` exactly when the four input
vectors disagree in length. Dates enter only through their length. -/
def constructSingle (prices : List ℚ) (entries exits : List Int) (datesLen : Nat)
    (tradeTypeStr : String) (initialCapital positionSizePct commissionPct : ℚ)
    (takeProfitPct stopLossPct : ℚ) (minHoldingPeriod maxHoldingPeriod : Int)
    (slipPct : ℚ) (maxPositionsParam : Nat) (forceClose : Bool)
    (priorityStr : String) : Except String Config :=
  if prices.length = entries.length ∧ prices.length = exits.length
      ∧ prices.length = datesLen then
    Except.ok
      { tradeType := parseTradeType tradeTypeStr
        startFund := initialCapital
        eachTrade := positionSizePct
        tradeFees := commissionPct
        tpStop := takeProfitPct
        slStop := stopLossPct
        minHolding := minHoldingPeriod
        maxHolding := maxHoldingPeriod
        slippagePct := slipPct
        maxPositions := maxPositionsParam
        forceCloseAtEnd := forceClose
        signalPriority := parseSignalPriorityMode priorityStr }
  else Except.error "Price, entries, exits, and dates must have the same size"

/-- Validation loop of the multi-signal constructor (backtest.cpp lines
155-172): iterate the entries map; a parameter whose exits are missing,
or whose vectors disagree with `prices`/`dates` in length, throws. The
`std::map` is modelled as an association list traversed in order. -/
def multiCheck (pricesLen datesLen : Nat) (exitsMap : List (String × List Int)) :
    List (String × List Int) → Except String Unit
  | [] => Except.ok ()
  | (param, entries) :: rest =>
    match exitsMap.lookup param with
    | Option.none => Except.error ("Exit signals not found for parameter: " ++ param)
    | Option.some exits =>
      if entries.length = pricesLen ∧ exits.length = pricesLen ∧ pricesLen = datesLen then
        multiCheck pricesLen datesLen exitsMap rest
      else
        Except.error
          ("Price, entries, exits, and dates must have the same size for parameter: " ++ param)

/-- `currentTrade->direction == "long"` as used throughout backtest.cpp. -/
def isLongTrade (t : Trade) : Bool := t.direction == "long"

/-- Signed price-move fraction of backtest.cpp lines 412-419. -/
def pricePctOf (t : Trade) (price : ℚ) : ℚ :=
  if isLongTrade t then (price - t.entryPrice) / t.entryPrice
  else (t.entryPrice - price) / t.entryPrice

/-- Exit-condition cascade of `processExitSignals`, backtest.cpp lines
421-448: take profit, then stop loss, then max holding, then exit
signal (the only branch that consults `minHolding`); first match wins. -/
def exitDecision (cfg : Config) (i : Nat) (price : ℚ) (exitSig : Int) (t : Trade) :
    ExitReason :=
  if cfg.tpStop > 0 ∧ pricePctOf t price ≥ cfg.tpStop then ExitReason.takeProfit
  else if cfg.slStop > 0 ∧ pricePctOf t price ≤ -cfg.slStop then ExitReason.stopLoss
  else if cfg.maxHolding > 0 ∧ (i : Int) - (t.entryIndex : Int) ≥ cfg.maxHolding then
    ExitReason.maxHoldingPeriod
  else if ((isLongTrade t ∧ exitSig = -1) ∨ (isLongTrade t = false ∧ exitSig = 1))
      ∧ (i : Int) - (t.entryIndex : Int) ≥ cfg.minHolding then ExitReason.exitSignal
  else ExitReason.noExit

/-- Exit fill price with adverse slippage, backtest.cpp lines 454-463
(the identical block reappears in the end-of-run flush, lines 308-317). -/
def exitPriceOf (cfg : Config) (price : ℚ) (isLong : Bool) : ℚ :=
  if cfg.slippagePct > 0 then
    if isLong then price * (1 - cfg.slippagePct) else price * (1 + cfg.slippagePct)
  else price

/-- Closing arithmetic shared verbatim by `processExitSignals`
(backtest.cpp lines 465-500) and the end-of-run flush (lines 319-354):
fills in the exit fields of a trade. -/
def closeTrade (cfg : Config) (i : Nat) (price : ℚ) (t : Trade) (reasonStr : String) :
    Trade :=
  let isLong := isLongTrade t
  let exitPrice := exitPriceOf cfg price isLong
  let longExitValue := t.quantity * exitPrice * (1 - cfg.tradeFees)
  let buybackCost := t.quantity * exitPrice
  let shortProfit := t.entryInvestment - (buybackCost + buybackCost * cfg.tradeFees)
  let profit := if isLong then longExitValue - t.entryInvestment else shortProfit
  let exitValue := if isLong then longExitValue else t.entryInvestment + shortProfit
  { t with
    exitPrice := exitPrice
    exitIndex := i
    exitFee := t.quantity * exitPrice * cfg.tradeFees
    exitValue := exitValue
    profit := profit
    profitPct := profit / t.entryInvestment * 100
    exitReason := reasonStr }

/-- `Backtest::processExitSignals`, backtest.cpp lines 394-516. Returns
(surviving open set, closed trades in scan order, updated capital,
`hasExited`). Closing credits `exitValue` to the running capital. -/
def processExitSignals (cfg : Config) (i : Nat) (price : ℚ) (exitSig : Int) :
    List Trade → ℚ → List Trade × List Trade × ℚ × Bool
  | [], capital => ([], [], capital, false)
  | t :: rest, capital =>
    if exitDecision cfg i price exitSig t = ExitReason.noExit then
      let r := processExitSignals cfg i price exitSig rest capital
      (t :: r.1, r.2.1, r.2.2.1, r.2.2.2)
    else
      let closed :=
        closeTrade cfg i price t (exitReasonToString (exitDecision cfg i price exitSig t))
      let r := processExitSignals cfg i price exitSig rest (capital + closed.exitValue)
      (r.1, closed :: r.2.1, r.2.2.1, true)

/-- Fresh position built by `processEntrySignals`, backtest.cpp lines
554-579. -/
def mkEntryTrade (cfg : Config) (i : Nat) (price : ℚ) (isLong : Bool)
    (tradeAmount : ℚ) : Trade :=
  let entryPrice :=
    if cfg.slippagePct > 0 then
      if isLong then price * (1 + cfg.slippagePct) else price * (1 - cfg.slippagePct)
    else price
  let entryFee := tradeAmount * cfg.tradeFees
  let actualInvestment := tradeAmount - entryFee
  { entryIndex := i
    entryPrice := entryPrice
    quantity := actualInvestment / entryPrice
    entryFee := entryFee
    entryInvestment := tradeAmount
    direction := if isLong then "long" else "short"
    currentValue := actualInvestment }

/-- `Backtest::processEntrySignals`, backtest.cpp lines 519-591. Returns
(open set, updated capital, `hasEntered`). Note the source sets
`hasEntered = true` as soon as the direction filter passes, before the
`tradeAmount > 0` guard that decides whether a position is created. -/
def processEntrySignals (cfg : Config) (i : Nat) (price : ℚ) (entrySig : Int)
    (openTrades : List Trade) (capital : ℚ) : List Trade × ℚ × Bool :=
  if (cfg.maxPositions = 0 ∨ openTrades.length < cfg.maxPositions)
      ∧ (entrySig = 1 ∨ entrySig = -1) then
    if (cfg.tradeType = TradeType.long ∧ entrySig = 1)
        ∨ (cfg.tradeType = TradeType.short ∧ ¬(entrySig = 1))
        ∨ cfg.tradeType = TradeType.longShort then
      let tradeAmount := capital * cfg.eachTrade
      if tradeAmount > 0 then
        (openTrades ++ [mkEntryTrade cfg i price (entrySig == 1) tradeAmount],
          capital - tradeAmount, true)
      else (openTrades, capital, true)
    else (openTrades, capital, false)
  else (openTrades, capital, false)

/-- Mark-to-market of backtest.cpp lines 253-256: every open position,
long or short alike, is revalued to `quantity * price`. -/
def markToMarket (price : ℚ) (t : Trade) : Trade :=
  { t with currentValue := t.quantity * price }

/-- Sum of `currentValue` over the open set (backtest.cpp lines 280-283). -/
def sumCurrentValue (l : List Trade) : ℚ := (l.map Trade.currentValue).sum

/-- Loop-carried state of `runSingleBacktest`: running capital, open
positions, and the ledger of closed trades in chronological order. -/
structure LoopState where
  capital : ℚ
  openTrades : List Trade
  closed : List Trade
deriving DecidableEq, Repr

/-- One iteration of the bar loop, backtest.cpp lines 246-297:
mark-to-market, the priority-ordered signal passes (with the conditional
second exit pass of `SAME_BAR_TRADE`, lines 269-272), then the per-bar
record (free capital, position value, total capital). -/
def barStep (cfg : Config) (i : Nat) (price : ℚ) (entrySig exitSig : Int)
    (s : LoopState) : LoopState × (ℚ × ℚ × ℚ) :=
  let marked := s.openTrades.map (markToMarket price)
  let afterSignals : List Trade × List Trade × ℚ :=
    if cfg.signalPriority = SignalPriorityMode.exitFirst
        ∨ cfg.signalPriority = SignalPriorityMode.sameBarTrade then
      let e1 := processExitSignals cfg i price exitSig marked s.capital
      let en := processEntrySignals cfg i price entrySig e1.1 e1.2.2.1
      if cfg.signalPriority = SignalPriorityMode.sameBarTrade ∧ en.2.2 = true
          ∧ ¬(exitSig = 0) then
        let e2 := processExitSignals cfg i price exitSig en.1 en.2.1
        (e2.1, e1.2.1 ++ e2.2.1, e2.2.2.1)
      else (en.1, e1.2.1, en.2.1)
    else
      let en := processEntrySignals cfg i price entrySig marked s.capital
      let e1 := processExitSignals cfg i price exitSig en.1 en.2.1
      (e1.1, e1.2.1, e1.2.2.1)
  let posValue := sumCurrentValue afterSignals.1
  (⟨afterSignals.2.2, afterSignals.1, s.closed ++ afterSignals.2.1⟩,
    (afterSignals.2.2, posValue, afterSignals.2.2 + posValue))

/-- The bar loop itself, driving `barStep` over the three parallel
vectors and collecting the per-bar (free, position, total) records. -/
def runLoop (cfg : Config) : Nat → List ℚ → List Int → List Int → LoopState →
    LoopState × List (ℚ × ℚ × ℚ)
  | i, p :: ps, en :: ens, ex :: exs, s =>
    let st := barStep cfg i p en ex s
    let rest := runLoop cfg (i + 1) ps ens exs st.1
    (rest.1, st.2 :: rest.2)
  | _, _, _, _, s => (s, [])

/-- Per-bar simple returns, backtest.cpp lines 290-296: entry 0 keeps its
initialisation, later entries divide by the previous total only when it
is strictly positive. Computed from the pre-overwrite totals, exactly as
in the source (the final-bar overwrite happens after the loop). -/
def dailyReturns (totals : List ℚ) : List ℚ :=
  (List.range totals.length).map fun i =>
    if i = 0 then 0
    else if totals.getD (i - 1) 0 > 0 then totals.getD i 0 / totals.getD (i - 1) 0 - 1
    else 0

/-- The observable output of `runSingleBacktest`: ledger, equity vectors,
and the `endValue` metric (`calculateMetrics` line 603 reads
`totalCapital.back()`). The remaining metrics are not needed by any
verified property. -/
structure RunResult where
  trades : List Trade
  freeCapital : List ℚ
  positionValue : List ℚ
  totalCapital : List ℚ
  dailyReturn : List ℚ
  endValue : ℚ
deriving DecidableEq, Repr

/-- Overwrite of the final record (backtest.cpp lines 374-376). -/
def setLast (l : List (ℚ × ℚ × ℚ)) (v : ℚ × ℚ × ℚ) : List (ℚ × ℚ × ℚ) :=
  l.set (l.length - 1) v

/-- `Backtest::runSingleBacktest`, backtest.cpp lines 225-391. After the
loop the source unconditionally reads `prices[dataSize - 1]` (line 301);
for an empty series that subscript is out of range, modelled as `get?`
returning `Option.none` and aborting the run. If `forceCloseAtEnd`, every
still-open position is closed at the last price with reason string
"End of Backtest" (lines 304-361; the open vector itself is not cleared).
If the open vector is non-empty the final bar's record is overwritten
(lines 365-377) with the post-flush capital and, when not force-closing,
the held positions' value. -/
def runSingleBacktest (cfg : Config) (prices : List ℚ) (entries exits : List Int) :
    Option RunResult :=
  let r := runLoop cfg 0 prices entries exits ⟨cfg.startFund, [], []⟩
  match prices.get? (prices.length - 1) with
  | Option.none => Option.none
  | Option.some lastPrice =>
    let s := r.1
    let recs := r.2
    let endClosed :=
      if cfg.forceCloseAtEnd then
        s.openTrades.map fun t =>
          closeTrade cfg (prices.length - 1) lastPrice t "End of Backtest"
      else []
    let capAfter := s.capital + (endClosed.map Trade.exitValue).sum
    let rets := dailyReturns (recs.map fun rec => rec.2.2)
    let finalRecs :=
      if s.openTrades = [] then recs
      else
        let finalPos := if cfg.forceCloseAtEnd then 0 else sumCurrentValue s.openTrades
        setLast recs (capAfter, finalPos, capAfter + finalPos)
    Option.some
      { trades := s.closed ++ endClosed
        freeCapital := finalRecs.map fun rec => rec.1
        positionValue := finalRecs.map fun rec => rec.2.1
        totalCapital := finalRecs.map fun rec => rec.2.2
        dailyReturn := rets
        endValue := (finalRecs.map fun rec => rec.2.2).getLastD 0 }

/-! Spec-side comparison definitions (each clearly marked as modelled
from the specification's words, for refinement comparison against the
source-derived definitions above). -/

/-- Modelled from the spec: the mark-to-market value of a short at bar
`i` is `entry_investment + (entry_price - price[i]) * quantity`. -/
def shortMarkSpec (entryInvestment entryPrice price quantity : ℚ) : ℚ :=
  entryInvestment + (entryPrice - price) * quantity

/-- Modelled from the spec: under `same_bar_trade` every bar runs Exit,
then Entry, then Exit again, unconditionally. Same record/ledger layout
as `barStep` for comparison. -/
def barStepSameBarSpec (cfg : Config) (i : Nat) (price : ℚ) (entrySig exitSig : Int)
    (s : LoopState) : LoopState × (ℚ × ℚ × ℚ) :=
  let marked := s.openTrades.map (markToMarket price)
  let e1 := processExitSignals cfg i price exitSig marked s.capital
  let en := processEntrySignals cfg i price entrySig e1.1 e1.2.2.1
  let e2 := processExitSignals cfg i price exitSig en.1 en.2.1
  let posValue := sumCurrentValue e2.1
  (⟨e2.2.2.1, e2.1, s.closed ++ e1.2.1 ++ e2.2.1⟩,
    (e2.2.2.1, posValue, e2.2.2.1 + posValue))

/-- A single Exit-then-Entry bar (the `exit_first` shape), used to state
what `barStep` actually does on a `same_bar_trade` bar whose second exit
pass is skipped. -/
def barStepExitThenEntry (cfg : Config) (i : Nat) (price : ℚ) (entrySig exitSig : Int)
    (s : LoopState) : LoopState × (ℚ × ℚ × ℚ) :=
  let marked := s.openTrades.map (markToMarket price)
  let e1 := processExitSignals cfg i price exitSig marked s.capital
  let en := processEntrySignals cfg i price entrySig e1.1 e1.2.2.1
  let posValue := sumCurrentValue en.1
  (⟨en.2.1, en.1, s.closed ++ e1.2.1⟩, (en.2.1, posValue, en.2.1 + posValue))

/-! Predicates used to state run-level properties over the `Option`
result of `runSingleBacktest`. -/

/-- The direction strings the engine ever stores on a trade. -/
def dirOk (s : String) : Prop := s = "long" ∨ s = "short"

/-- The exit-reason strings the engine ever stores on a completed trade. -/
def ledgerReasonOk (s : String) : Prop :=
  s = "Take Profit" ∨ s = "Stop Loss" ∨ s = "Exit Signal"
    ∨ s = "Max Holding Period Reached" ∨ s = "End of Backtest"

/-- Every trade of a completed run carries one of the engine's direction
strings and one of its exit-reason strings. -/
def ledgerOk (res : Option RunResult) : Prop :=
  match res with
  | Option.none => True
  | Option.some r => ∀ t ∈ r.trades, dirOk t.direction ∧ ledgerReasonOk t.exitReason

/-- No trade of a completed run carries the force-exit reason string. -/
def noForceExitSurfaced (res : Option RunResult) : Prop :=
  match res with
  | Option.none => True
  | Option.some r => ∀ t ∈ r.trades, ¬(t.exitReason = "Force Exit due to Negative Capital")

/-- Invariant carried through the bar loop: every open position and
every closed trade carries one of the engine's direction strings, and
every closed trade one of its exit-reason strings. -/
def stateOk (s : LoopState) : Prop :=
  (∀ t ∈ s.openTrades, dirOk t.direction)
    ∧ (∀ t ∈ s.closed, dirOk t.direction ∧ ledgerReasonOk t.exitReason)

/-- At every bar the recorded total capital is the sum of the recorded
free capital and position value. -/
def capitalIdentity (res : Option RunResult) (i : Nat) : Prop :=
  match res with
  | Option.none => True
  | Option.some r => r.totalCapital.getD i 0 = r.freeCapital.getD i 0 + r.positionValue.getD i 0

/-! The four exit conditions of the spec (section 4.3), stated over the
embedded data; they are compared against `exitDecision`. -/

/-- Take-profit condition. -/
def tpCond (cfg : Config) (price : ℚ) (t : Trade) : Prop :=
  cfg.tpStop > 0 ∧ pricePctOf t price ≥ cfg.tpStop

/-- Stop-loss condition. -/
def slCond (cfg : Config) (price : ℚ) (t : Trade) : Prop :=
  cfg.slStop > 0 ∧ pricePctOf t price ≤ -cfg.slStop

/-- Max-holding condition. -/
def mhCond (cfg : Config) (i : Nat) (t : Trade) : Prop :=
  cfg.maxHolding > 0 ∧ (i : Int) - (t.entryIndex : Int) ≥ cfg.maxHolding

/-- Exit-signal condition, including its `minHolding` gate. -/
def esCond (cfg : Config) (i : Nat) (exitSig : Int) (t : Trade) : Prop :=
  ((isLongTrade t ∧ exitSig = -1) ∨ (isLongTrade t = false ∧ exitSig = 1))
    ∧ (i : Int) - (t.entryIndex : Int) ≥ cfg.minHolding

/-! Concrete parameter bundles used by the per-claim evaluations. -/

/-- C1 scenario: short-only, 0.1% fee, no exit all run. -/
def cfgC1 : Config :=
  { tradeType := TradeType.short, startFund := 1000, eachTrade := 1, tradeFees := 1 / 1000
    tpStop := 0, slStop := 0, minHolding := 0, maxHolding := 0, slippagePct := 0
    maxPositions := 0, forceCloseAtEnd := false
    signalPriority := SignalPriorityMode.exitFirst }

/-- C2 scenario: short-only, no fees, price triples against the short. -/
def cfgC2 : Config :=
  { tradeType := TradeType.short, startFund := 1000, eachTrade := 1, tradeFees := 0
    tpStop := 0, slStop := 0, minHolding := 0, maxHolding := 0, slippagePct := 0
    maxPositions := 0, forceCloseAtEnd := false
    signalPriority := SignalPriorityMode.exitFirst }

/-- C5 counterexample scenario: `same_bar_trade`, 50% slippage, 10% stop
loss, entry bar with a zero exit signal. -/
def cfgC5 : Config :=
  { tradeType := TradeType.long, startFund := 1000, eachTrade := 1, tradeFees := 0
    tpStop := 0, slStop := 1 / 10, minHolding := 0, maxHolding := 0, slippagePct := 1 / 2
    maxPositions := 0, forceCloseAtEnd := false
    signalPriority := SignalPriorityMode.sameBarTrade }

/-- C5 witness scenario (spec scenario S5): `same_bar_trade`, no costs. -/
def cfgC5w : Config :=
  { tradeType := TradeType.long, startFund := 1000, eachTrade := 1, tradeFees := 0
    tpStop := 0, slStop := 0, minHolding := 0, maxHolding := 0, slippagePct := 0
    maxPositions := 0, forceCloseAtEnd := false
    signalPriority := SignalPriorityMode.sameBarTrade }

/-- C6 witness scenario: both stops set, `minHolding = 3`. -/
def cfgC6w : Config :=
  { tradeType := TradeType.long, startFund := 1000, eachTrade := 1, tradeFees := 0
    tpStop := 1 / 10, slStop := 1 / 10, minHolding := 3, maxHolding := 0, slippagePct := 0
    maxPositions := 0, forceCloseAtEnd := false
    signalPriority := SignalPriorityMode.exitFirst }

/-- C6 witness trade: a long opened at bar 0 at price 100. -/
def tC6w : Trade := { entryIndex := 0, entryPrice := 100, direction := "long" }

/-- C7 counterexample scenario (spec scenario S1): long round-trip via
exit signal, no costs. -/
def cfgC7 : Config :=
  { tradeType := TradeType.long, startFund := 1000, eachTrade := 1, tradeFees := 0
    tpStop := 0, slStop := 0, minHolding := 1, maxHolding := 0, slippagePct := 0
    maxPositions := 0, forceCloseAtEnd := false
    signalPriority := SignalPriorityMode.exitFirst }

/-- C8 scenario (spec scenario S4): short round-trip with fees. -/
def cfgC8 : Config :=
  { tradeType := TradeType.short, startFund := 1000, eachTrade := 1, tradeFees := 1 / 1000
    tpStop := 0, slStop := 0, minHolding := 1, maxHolding := 0, slippagePct := 0
    maxPositions := 0, forceCloseAtEnd := false
    signalPriority := SignalPriorityMode.exitFirst }

/-- C9 witness scenario. -/
def cfgC9 : Config :=
  { tradeType := TradeType.short, startFund := 1000, eachTrade := 1, tradeFees := 1 / 1000
    tpStop := 0, slStop := 0, minHolding := 1, maxHolding := 0, slippagePct := 0
    maxPositions := 0, forceCloseAtEnd := false
    signalPriority := SignalPriorityMode.exitFirst }

/-- C4 witness scenario: an arbitrary configuration for the empty run. -/
def cfgC4 : Config :=
  { tradeType := TradeType.long, startFund := 1000, eachTrade := 1, tradeFees := 0
    tpStop := 0, slStop := 0, minHolding := 0, maxHolding := 0, slippagePct := 0
    maxPositions := 0, forceCloseAtEnd := true
    signalPriority := SignalPriorityMode.exitFirst }

/-- C10 scenario: `same_bar_trade`, long entries permitted, with zero
capital so that no position can actually be created. -/
def cfgC10 : Config :=
  { tradeType := TradeType.long, startFund := 0, eachTrade := 1, tradeFees := 0
    tpStop := 0, slStop := 0, minHolding := 0, maxHolding := 0, slippagePct := 0
    maxPositions := 0, forceCloseAtEnd := false
    signalPriority := SignalPriorityMode.sameBarTrade }

/-! Theorems. First a few literal disequalities used to reduce the
branching of concrete runs (simp does not discharge these inside large
if-conditions on its own). -/

theorem string_short_ne_long : "short" ≠ "long" := by decide

theorem takeProfit_ne_noExit : ExitReason.takeProfit ≠ ExitReason.noExit := by decide

theorem stopLoss_ne_noExit : ExitReason.stopLoss ≠ ExitReason.noExit := by decide

theorem exitSignal_ne_noExit : ExitReason.exitSignal ≠ ExitReason.noExit := by decide

theorem maxHoldingPeriod_ne_noExit : ExitReason.maxHoldingPeriod ≠ ExitReason.noExit := by
  decide

/-- C1: evaluating the code at the failing input. On
`prices = [100, 90]`, a short opened at bar 0 (quantity `999/100`,
`entry_investment = 1000`, `entry_price = 100`) is marked at bar 1 with
`current_value = quantity * price[1] = 899.1`, recorded in
`position_value[1]`; the claimed formula
`entry_investment + (entry_price - price[1]) * quantity` gives `1099.9`
instead, so the code contradicts the claim (a winning short shrinks the
recorded equity). -/
theorem c1_short_mark_code_eval :
    ((runSingleBacktest cfgC1 [100, 90] [-1, 0] [0, 0]).map fun r =>
        r.positionValue.getD 1 0) = Option.some (8991 / 10)
      ∧ shortMarkSpec 1000 100 90 (999 / 100) = 10999 / 10
      ∧ ¬((8991 : ℚ) / 10 = (10999 : ℚ) / 10) := by
  refine ⟨?_, by norm_num [shortMarkSpec], by norm_num⟩
  norm_num [runSingleBacktest, runLoop, barStep, processExitSignals, processEntrySignals,
    mkEntryTrade, closeTrade, exitDecision, pricePctOf, isLongTrade, markToMarket,
    sumCurrentValue, exitPriceOf, dailyReturns, setLast, cfgC1, string_short_ne_long,
    takeProfit_ne_noExit, stopLoss_ne_noExit, exitSignal_ne_noExit, maxHoldingPeriod_ne_noExit]

/-- C2 counterexample: on `prices = [100, 300]` a short-only run exits at
bar 1 on the exit signal; the buy-back exceeds the reserved capital, so
`free_capital` ends at `-1000` (not `0`) and the trade's reason is
"Exit Signal" (not force exit), refuting the claimed force-exit flush. -/
theorem c2_no_force_exit_counterexample :
    ((runSingleBacktest cfgC2 [100, 300] [-1, 0] [0, 1]).map fun r =>
      (r.trades.map Trade.exitReason, r.freeCapital.getD 1 0))
      = Option.some (["Exit Signal"], -1000) := by
  norm_num [runSingleBacktest, runLoop, barStep, processExitSignals, processEntrySignals,
    mkEntryTrade, closeTrade, exitDecision, pricePctOf, isLongTrade, markToMarket,
    sumCurrentValue, exitPriceOf, dailyReturns, setLast, exitReasonToString, cfgC2,
    string_short_ne_long, takeProfit_ne_noExit, stopLoss_ne_noExit, exitSignal_ne_noExit,
    maxHoldingPeriod_ne_noExit]

/-- C3 counterexample: construction succeeds (no `InvalidInput`) for a
negative initial capital and unknown `trade_type` / `signal_priority` /
`timeframe` strings; the unknown enum strings silently map to the
defaults `LONG`, `EXIT_FIRST` and 365 periods per year. -/
theorem c3_construction_counterexample :
    (constructSingle [100] [0] [0] 1 "banana" (-5) 1 0 0 0 0 0 0 0 false "weird").isOk = true
      ∧ parseTradeType "banana" = TradeType.long
      ∧ parseSignalPriorityMode "weird" = SignalPriorityMode.exitFirst
      ∧ getPeriodsPerYear "1w" = 365 := by
  refine ⟨by decide, by decide, by decide, by decide⟩

/-- C4: evaluating the code at the failing input. For the empty price
series the loop body never runs, but the post-loop code unconditionally
reads `prices[dataSize - 1]`, an out-of-range subscript when
`dataSize = 0`; the embedding models that read as `List.get?`, so the
run aborts with `Option.none` for every configuration instead of
returning zero metrics. -/
theorem c4_empty_series_out_of_range :
    ∀ cfg : Config, runSingleBacktest cfg [] [] [] = Option.none := by
  intro cfg
  rfl

/-- C5 counterexample: a `same_bar_trade` bar whose entry fills (50%
slippage pushes the fill 33% against the position, beyond the 10% stop
loss) but whose exit signal is `0`. The code skips the second exit pass,
leaving the position open and the ledger empty, while the spec's
unconditional Exit-Entry-Exit bar closes it with "Stop Loss": the claim
that every bar runs Exit, then Entry, then Exit again is false. -/
theorem c5_second_pass_counterexample :
    (barStep cfgC5 0 100 1 0 ⟨1000, [], []⟩).1.closed = []
      ∧ ((barStepSameBarSpec cfgC5 0 100 1 0 ⟨1000, [], []⟩).1.closed.map Trade.exitReason)
          = ["Stop Loss"]
      ∧ ¬(barStep cfgC5 0 100 1 0 ⟨1000, [], []⟩
          = barStepSameBarSpec cfgC5 0 100 1 0 ⟨1000, [], []⟩) := by
  refine ⟨?_, ?_, ?_⟩ <;>
    norm_num [barStep, barStepSameBarSpec, processExitSignals, processEntrySignals,
      mkEntryTrade, closeTrade, exitDecision, pricePctOf, isLongTrade, markToMarket,
      sumCurrentValue, exitPriceOf, exitReasonToString, cfgC5, LoopState.mk.injEq,
      string_short_ne_long, takeProfit_ne_noExit, stopLoss_ne_noExit, exitSignal_ne_noExit,
      maxHoldingPeriod_ne_noExit]

/-- C7 counterexample: a completed trade (spec scenario S1) carries the
exit-reason string "Exit Signal", which is not one of the snake_case
identifiers the claim lists; the engine's actual surface strings are the
human-readable phrases of `exitReasonToString`. -/
theorem c7_string_surface_counterexample :
    ((runSingleBacktest cfgC7 [100, 110] [1, 0] [0, -1]).map fun r =>
        r.trades.map Trade.exitReason) = Option.some ["Exit Signal"]
      ∧ ¬("Exit Signal" ∈ ["long", "short", "take_profit", "stop_loss", "exit_signal",
            "max_holding_period", "end_of_backtest", "force_exit"]) := by
  constructor
  · norm_num [runSingleBacktest, runLoop, barStep, processExitSignals, processEntrySignals,
      mkEntryTrade, closeTrade, exitDecision, pricePctOf, isLongTrade, markToMarket,
      sumCurrentValue, exitPriceOf, dailyReturns, setLast, exitReasonToString, cfgC7,
      string_short_ne_long, takeProfit_ne_noExit, stopLoss_ne_noExit, exitSignal_ne_noExit,
      maxHoldingPeriod_ne_noExit]
  · simp

/-- C8: the spec scenario S4 short round-trip with fees, evaluated
exactly: one trade with `entry_fee = 1`, `quantity = 999/100`,
buy-back `quantity * exit_price = 899.1`, `exit_fee = 0.8991`,
`profit = 100.0009`, and final `end_value = 1100.0009`. -/
theorem c8_short_round_trip_exact :
    ((runSingleBacktest cfgC8 [100, 90] [-1, 0] [0, 1]).map fun r =>
      (r.trades.map fun t =>
        (t.entryFee, t.quantity, t.quantity * t.exitPrice, t.exitFee, t.profit),
       r.endValue))
      = Option.some ([((1 : ℚ), 999 / 100, 8991 / 10, 8991 / 10000, 1000009 / 10000)],
          11000009 / 10000) := by
  norm_num [runSingleBacktest, runLoop, barStep, processExitSignals, processEntrySignals,
    mkEntryTrade, closeTrade, exitDecision, pricePctOf, isLongTrade, markToMarket,
    sumCurrentValue, exitPriceOf, dailyReturns, setLast, exitReasonToString, cfgC8,
    string_short_ne_long, takeProfit_ne_noExit, stopLoss_ne_noExit, exitSignal_ne_noExit,
    maxHoldingPeriod_ne_noExit]

/-! Helper lemmas for the run-level invariants. -/

theorem barStep_record_sum (cfg : Config) (i : Nat) (price : ℚ) (entrySig exitSig : Int)
    (s : LoopState) :
    (barStep cfg i price entrySig exitSig s).2.2.2
      = (barStep cfg i price entrySig exitSig s).2.1
        + (barStep cfg i price entrySig exitSig s).2.2.1 := rfl

theorem runLoop_record_sum (cfg : Config) :
    ∀ (ps : List ℚ) (ens exs : List Int) (i : Nat) (s : LoopState),
      ∀ rec ∈ (runLoop cfg i ps ens exs s).2, rec.2.2 = rec.1 + rec.2.1 := by
  intro ps
  induction ps with
  | nil => intro ens exs i s rec h; simp [runLoop] at h
  | cons p ps ih =>
    intro ens exs i s rec h
    cases ens with
    | nil => simp [runLoop] at h
    | cons en ens =>
      cases exs with
      | nil => simp [runLoop] at h
      | cons ex exs =>
        rw [runLoop] at h
        rcases List.mem_cons.mp h with h1 | h2
        · rw [h1]; exact barStep_record_sum cfg i p en ex s
        · exact ih ens exs (i + 1) _ rec h2

theorem record_sum_getD (l : List (ℚ × ℚ × ℚ))
    (h : ∀ r ∈ l, r.2.2 = r.1 + r.2.1) :
    ∀ i : Nat, (l.map fun r => r.2.2).getD i 0
      = (l.map fun r => r.1).getD i 0 + (l.map fun r => r.2.1).getD i 0 := by
  induction l with
  | nil => intro i; simp
  | cons r rest ih =>
    intro i
    cases i with
    | zero => simpa using h r (List.mem_cons_self r rest)
    | succ n =>
      simp only [List.map_cons, List.getD_cons_succ]
      exact ih (fun x hx => h x (List.mem_cons_of_mem r hx)) n

theorem setLast_record_sum (l : List (ℚ × ℚ × ℚ)) (v : ℚ × ℚ × ℚ)
    (h : ∀ r ∈ l, r.2.2 = r.1 + r.2.1) (hv : v.2.2 = v.1 + v.2.1) :
    ∀ r ∈ setLast l v, r.2.2 = r.1 + r.2.1 := by
  intro r hr
  rcases List.mem_or_eq_of_mem_set hr with h1 | h2
  · exact h r h1
  · rw [h2]; exact hv

/-- C9: for every configuration, every input and every bar index, the
recorded equity series of a completed run satisfies
`total_capital[i] = free_capital[i] + position_value[i]`, including the
final bar after the end-of-run force-close overwrite. -/
theorem c9_capital_identity :
    ∀ (cfg : Config) (prices : List ℚ) (entries exits : List Int) (i : Nat),
      capitalIdentity (runSingleBacktest cfg prices entries exits) i := by
  intro cfg prices entries exits i
  unfold runSingleBacktest capitalIdentity
  rcases hp : prices.get? (prices.length - 1) with _ | lastPrice
  · simp
  · simp only
    have hrec : ∀ rec ∈ (runLoop cfg 0 prices entries exits ⟨cfg.startFund, [], []⟩).2,
        rec.2.2 = rec.1 + rec.2.1 :=
      runLoop_record_sum cfg prices entries exits 0 ⟨cfg.startFund, [], []⟩
    apply record_sum_getD
    split_ifs with h h2 <;>
      first
        | exact hrec
        | exact setLast_record_sum _ _ hrec rfl

/-! Helper lemmas for the ledger string surface. -/

theorem closeTrade_direction (cfg : Config) (i : Nat) (price : ℚ) (t : Trade)
    (reasonStr : String) : (closeTrade cfg i price t reasonStr).direction = t.direction := rfl

theorem closeTrade_reason (cfg : Config) (i : Nat) (price : ℚ) (t : Trade)
    (reasonStr : String) : (closeTrade cfg i price t reasonStr).exitReason = reasonStr := rfl

theorem markToMarket_direction (price : ℚ) (t : Trade) :
    (markToMarket price t).direction = t.direction := rfl

theorem mkEntryTrade_dirOk (cfg : Config) (i : Nat) (price : ℚ) (b : Bool) (amt : ℚ) :
    dirOk (mkEntryTrade cfg i price b amt).direction := by
  cases b <;> simp [mkEntryTrade, dirOk]

theorem exitDecision_ne_force (cfg : Config) (i : Nat) (price : ℚ) (exitSig : Int)
    (t : Trade) : exitDecision cfg i price exitSig t ≠ ExitReason.forceExit := by
  unfold exitDecision
  split_ifs <;> simp

theorem reasonString_ok (r : ExitReason) (h1 : r ≠ ExitReason.noExit)
    (h2 : r ≠ ExitReason.forceExit) : ledgerReasonOk (exitReasonToString r) := by
  cases r <;> simp_all [exitReasonToString, ledgerReasonOk]

theorem processExit_pres (cfg : Config) (i : Nat) (price : ℚ) (exitSig : Int) :
    ∀ (l : List Trade) (cap : ℚ), (∀ t ∈ l, dirOk t.direction) →
      (∀ t ∈ (processExitSignals cfg i price exitSig l cap).1, dirOk t.direction)
      ∧ (∀ t ∈ (processExitSignals cfg i price exitSig l cap).2.1,
          dirOk t.direction ∧ ledgerReasonOk t.exitReason) := by
  intro l
  induction l with
  | nil => intro cap h; simp [processExitSignals]
  | cons t rest ih =>
    intro cap h
    have hhead : dirOk t.direction := h t (List.mem_cons_self t rest)
    have htail : ∀ x ∈ rest, dirOk x.direction := fun x hx => h x (List.mem_cons_of_mem t hx)
    by_cases hd : exitDecision cfg i price exitSig t = ExitReason.noExit
    · rw [processExitSignals, if_pos hd]
      refine ⟨?_, ?_⟩
      · intro x hx
        rcases List.mem_cons.mp hx with h1 | h2
        · rw [h1]; exact hhead
        · exact (ih cap htail).1 x h2
      · intro x hx
        exact (ih cap htail).2 x hx
    · rw [processExitSignals, if_neg hd]
      refine ⟨?_, ?_⟩
      · intro x hx
        exact (ih _ htail).1 x hx
      · intro x hx
        rcases List.mem_cons.mp hx with h1 | h2
        · rw [h1]
          refine ⟨?_, ?_⟩
          · rw [closeTrade_direction]; exact hhead
          · rw [closeTrade_reason]
            exact reasonString_ok _ hd (exitDecision_ne_force cfg i price exitSig t)
        · exact (ih _ htail).2 x h2

theorem processEntry_pres (cfg : Config) (i : Nat) (price : ℚ) (entrySig : Int)
    (l : List Trade) (cap : ℚ) (h : ∀ t ∈ l, dirOk t.direction) :
    ∀ t ∈ (processEntrySignals cfg i price entrySig l cap).1, dirOk t.direction := by
  simp only [processEntrySignals]
  split_ifs with h1 h2 h3
  · intro t ht
    rcases List.mem_append.mp ht with h4 | h5
    · exact h t h4
    · rw [List.mem_singleton.mp h5]
      exact mkEntryTrade_dirOk cfg i price (entrySig == 1) (cap * cfg.eachTrade)
  · exact h
  · exact h
  · exact h

theorem barStep_pres (cfg : Config) (i : Nat) (price : ℚ) (entrySig exitSig : Int)
    (s : LoopState) (h : stateOk s) : stateOk (barStep cfg i price entrySig exitSig s).1 := by
  obtain ⟨hopen, hclosed⟩ := h
  have hmark : ∀ t ∈ s.openTrades.map (markToMarket price), dirOk t.direction := by
    intro t ht
    rcases List.mem_map.mp ht with ⟨t0, ht0, he⟩
    rw [← he, markToMarket_direction]
    exact hopen t0 ht0
  have p1 := processExit_pres cfg i price exitSig
    (s.openTrades.map (markToMarket price)) s.capital hmark
  simp only [barStep, stateOk]
  split_ifs with h1 h2
  · have p2 := processEntry_pres cfg i price entrySig
      (processExitSignals cfg i price exitSig (s.openTrades.map (markToMarket price))
        s.capital).1
      (processExitSignals cfg i price exitSig (s.openTrades.map (markToMarket price))
        s.capital).2.2.1 p1.1
    have p3 := processExit_pres cfg i price exitSig
      (processEntrySignals cfg i price entrySig
        (processExitSignals cfg i price exitSig (s.openTrades.map (markToMarket price))
          s.capital).1
        (processExitSignals cfg i price exitSig (s.openTrades.map (markToMarket price))
          s.capital).2.2.1).1
      (processEntrySignals cfg i price entrySig
        (processExitSignals cfg i price exitSig (s.openTrades.map (markToMarket price))
          s.capital).1
        (processExitSignals cfg i price exitSig (s.openTrades.map (markToMarket price))
          s.capital).2.2.1).2.1 p2
    refine ⟨fun t ht => p3.1 t ht, ?_⟩
    intro t ht
    rcases List.mem_append.mp ht with h3 | h4
    · exact hclosed t h3
    · rcases List.mem_append.mp h4 with h5 | h6
      · exact p1.2 t h5
      · exact p3.2 t h6
  · have p2 := processEntry_pres cfg i price entrySig
      (processExitSignals cfg i price exitSig (s.openTrades.map (markToMarket price))
        s.capital).1
      (processExitSignals cfg i price exitSig (s.openTrades.map (markToMarket price))
        s.capital).2.2.1 p1.1
    refine ⟨fun t ht => p2 t ht, ?_⟩
    intro t ht
    rcases List.mem_append.mp ht with h3 | h4
    · exact hclosed t h3
    · exact p1.2 t h4
  · have p2 := processEntry_pres cfg i price entrySig
      (s.openTrades.map (markToMarket price)) s.capital hmark
    have p3 := processExit_pres cfg i price exitSig
      (processEntrySignals cfg i price entrySig
        (s.openTrades.map (markToMarket price)) s.capital).1
      (processEntrySignals cfg i price entrySig
        (s.openTrades.map (markToMarket price)) s.capital).2.1 p2
    refine ⟨fun t ht => p3.1 t ht, ?_⟩
    intro t ht
    rcases List.mem_append.mp ht with h3 | h4
    · exact hclosed t h3
    · exact p3.2 t h4

theorem runLoop_pres (cfg : Config) :
    ∀ (ps : List ℚ) (ens exs : List Int) (i : Nat) (s : LoopState),
      stateOk s → stateOk (runLoop cfg i ps ens exs s).1 := by
  intro ps
  induction ps with
  | nil => intro ens exs i s h; simpa [runLoop] using h
  | cons p ps ih =>
    intro ens exs i s h
    cases ens with
    | nil => simpa [runLoop] using h
    | cons en ens =>
      cases exs with
      | nil => simpa [runLoop] using h
      | cons ex exs =>
        rw [runLoop]
        exact ih ens exs (i + 1) _ (barStep_pres cfg i p en ex s h)

theorem run_ledger (cfg : Config) (prices : List ℚ) (entries exits : List Int) :
    ledgerOk (runSingleBacktest cfg prices entries exits) := by
  unfold ledgerOk runSingleBacktest
  rcases hp : prices.get? (prices.length - 1) with _ | lastPrice
  · simp
  · dsimp only
    intro t ht
    have hstate := runLoop_pres cfg prices entries exits 0 ⟨cfg.startFund, [], []⟩
      (by exact ⟨by simp, by simp⟩)
    rcases List.mem_append.mp ht with h1 | h2
    · exact hstate.2 t h1
    · by_cases hf : cfg.forceCloseAtEnd = true
      · rw [if_pos hf] at h2
        rcases List.mem_map.mp h2 with ⟨t0, ht0, he⟩
        rw [← he]
        refine ⟨?_, ?_⟩
        · rw [closeTrade_direction]; exact hstate.1 t0 ht0
        · rw [closeTrade_reason]
          simp [ledgerReasonOk]
      · rw [if_neg hf] at h2
        simp at h2

/-- C2 amended: the engine has no force-exit recovery at all. Whatever
the configuration and inputs, no completed trade ever carries the
force-exit reason string; an exit that drives free capital negative
simply proceeds with its normal reason and leaves the negative balance
in place (see the counterexample for a concrete run). -/
theorem c2_amended_no_force_exit :
    ∀ (cfg : Config) (prices : List ℚ) (entries exits : List Int),
      noForceExitSurfaced (runSingleBacktest cfg prices entries exits) := by
  intro cfg prices entries exits
  unfold noForceExitSurfaced
  rcases hr : runSingleBacktest cfg prices entries exits with _ | r
  · trivial
  · have h := run_ledger cfg prices entries exits
    rw [hr] at h
    intro t ht
    rcases (h t ht).2 with h1 | h1 | h1 | h1 | h1 <;> rw [h1] <;> simp

/-- C7 amended: every completed trade carries a direction string in
`{"long", "short"}` and an exit-reason string in `{"Take Profit",
"Stop Loss", "Exit Signal", "Max Holding Period Reached",
"End of Backtest"}` — the engine's actual stable surface; the claim's
snake_case identifiers never appear, nor does any force-exit string. -/
theorem c7_amended_string_surface :
    ∀ (cfg : Config) (prices : List ℚ) (entries exits : List Int),
      ledgerOk (runSingleBacktest cfg prices entries exits) :=
  fun cfg prices entries exits => run_ledger cfg prices entries exits

/-- C3 amended: construction fails exactly on a length mismatch of the
input vectors (single constructor), or, for the multi constructor, when
some named entry series lacks a matching exit series or has mismatched
lengths. Negative capital and unknown enum strings never fail (the
latter default to `LONG` / `EXIT_FIRST` / 365, see the counterexample). -/
theorem c3_construction_amended :
    (∀ (prices : List ℚ) (entries exits : List Int) (datesLen : Nat)
        (tradeTypeStr : String) (initialCapital positionSizePct commissionPct : ℚ)
        (takeProfitPct stopLossPct : ℚ) (minHoldingPeriod maxHoldingPeriod : Int)
        (slipPct : ℚ) (maxPositionsParam : Nat) (forceClose : Bool) (priorityStr : String),
      (constructSingle prices entries exits datesLen tradeTypeStr initialCapital
          positionSizePct commissionPct takeProfitPct stopLossPct minHoldingPeriod
          maxHoldingPeriod slipPct maxPositionsParam forceClose priorityStr).isOk = true
        ↔ (prices.length = entries.length ∧ prices.length = exits.length
            ∧ prices.length = datesLen))
    ∧ (∀ (pricesLen datesLen : Nat) (exitsMap entriesList : List (String × List Int)),
        multiCheck pricesLen datesLen exitsMap entriesList = Except.ok ()
          ↔ ∀ pe ∈ entriesList, ∃ xs, exitsMap.lookup pe.1 = Option.some xs
              ∧ pe.2.length = pricesLen ∧ xs.length = pricesLen ∧ pricesLen = datesLen) := by
  constructor
  · intro prices entries exits datesLen tradeTypeStr ic ps cp tp sl mh mx sp mp fc pm
    unfold constructSingle
    split_ifs with h
    · exact iff_of_true rfl h
    · exact iff_of_false (by simp [Except.isOk, Except.toBool]) h
  · intro pricesLen datesLen exitsMap entriesList
    induction entriesList with
    | nil => simp [multiCheck]
    | cons pe rest ih =>
      obtain ⟨param, entries⟩ := pe
      rcases hlk : exitsMap.lookup param with _ | xs
      · constructor
        · intro h
          simp only [multiCheck, hlk] at h
          exact absurd h (by simp)
        · intro h
          obtain ⟨xs, hx, -⟩ := h (param, entries) (List.mem_cons_self _ _)
          rw [hlk] at hx
          exact absurd hx (by simp)
      · by_cases hlen : entries.length = pricesLen ∧ xs.length = pricesLen
            ∧ pricesLen = datesLen
        · simp only [multiCheck, hlk]
          rw [if_pos hlen, ih]
          constructor
          · intro h
            intro q hq
            rcases List.mem_cons.mp hq with h1 | h2
            · rw [h1]
              exact ⟨xs, hlk, hlen⟩
            · exact h q h2
          · intro h q hq
            exact h q (List.mem_cons_of_mem _ hq)
        · constructor
          · intro h
            simp only [multiCheck, hlk] at h
            rw [if_neg hlen] at h
            exact absurd h (by simp)
          · intro h
            obtain ⟨xs2, hx2, hl2⟩ := h (param, entries) (List.mem_cons_self _ _)
            rw [hlk] at hx2
            obtain rfl : xs = xs2 := by
              injection hx2
            exact absurd hl2 hlen

/-- C3 witness: equal-length vectors construct successfully. -/
theorem c3_construction_amended_witness :
    (constructSingle [(100 : ℚ)] [0] [0] 1 "long" 1000 1 0 0 0 0 0 0 0 false
        "exit_first").isOk = true :=
  (c3_construction_amended.1 [(100 : ℚ)] [0] [0] 1 "long" 1000 1 0 0 0 0 0 0 0 false
    "exit_first").mpr ⟨rfl, rfl, rfl⟩

/-- The first three exit conditions never read `minHolding`, so a
take-profit, stop-loss or max-holding decision is unchanged under any
`minHolding`. -/
theorem exitDecision_minHolding_irrelevant (cfg : Config) (m : Int) (i : Nat) (price : ℚ)
    (exitSig : Int) (t : Trade)
    (h : exitDecision cfg i price exitSig t = ExitReason.takeProfit
      ∨ exitDecision cfg i price exitSig t = ExitReason.stopLoss
      ∨ exitDecision cfg i price exitSig t = ExitReason.maxHoldingPeriod) :
    exitDecision { cfg with minHolding := m } i price exitSig t
      = exitDecision cfg i price exitSig t := by
  unfold exitDecision at *
  split_ifs at * <;> simp_all

/-- C6: the exit processor checks take-profit, stop-loss, max-holding
and exit-signal in that fixed order with the first match winning — both
directions: each decision implies that its own condition held and every
earlier condition failed (soundness), and conversely whenever a
condition is the first to hold the decision is exactly that rule, with
`noExit` when none holds (completeness). `minHolding` gates only the
exit-signal rule: a signal exit implies `holding_period ≥ minHolding`,
while the other three decisions are taken independently of `minHolding`
(hence at any holding period). -/
theorem c6_exit_rule_order :
    ∀ (cfg : Config) (i : Nat) (price : ℚ) (exitSig : Int) (t : Trade),
      (tpCond cfg price t → exitDecision cfg i price exitSig t = ExitReason.takeProfit)
      ∧ (exitDecision cfg i price exitSig t = ExitReason.takeProfit → tpCond cfg price t)
      ∧ (exitDecision cfg i price exitSig t = ExitReason.stopLoss
          → ¬tpCond cfg price t ∧ slCond cfg price t)
      ∧ (exitDecision cfg i price exitSig t = ExitReason.maxHoldingPeriod
          → ¬tpCond cfg price t ∧ ¬slCond cfg price t ∧ mhCond cfg i t)
      ∧ (exitDecision cfg i price exitSig t = ExitReason.exitSignal
          → ¬tpCond cfg price t ∧ ¬slCond cfg price t ∧ ¬mhCond cfg i t
            ∧ esCond cfg i exitSig t)
      ∧ (exitDecision cfg i price exitSig t = ExitReason.exitSignal
          → (i : Int) - (t.entryIndex : Int) ≥ cfg.minHolding)
      ∧ (¬tpCond cfg price t ∧ slCond cfg price t
          → exitDecision cfg i price exitSig t = ExitReason.stopLoss)
      ∧ (¬tpCond cfg price t ∧ ¬slCond cfg price t ∧ mhCond cfg i t
          → exitDecision cfg i price exitSig t = ExitReason.maxHoldingPeriod)
      ∧ (¬tpCond cfg price t ∧ ¬slCond cfg price t ∧ ¬mhCond cfg i t
            ∧ esCond cfg i exitSig t
          → exitDecision cfg i price exitSig t = ExitReason.exitSignal)
      ∧ (¬tpCond cfg price t ∧ ¬slCond cfg price t ∧ ¬mhCond cfg i t
            ∧ ¬esCond cfg i exitSig t
          → exitDecision cfg i price exitSig t = ExitReason.noExit)
      ∧ (∀ m : Int,
          (exitDecision cfg i price exitSig t = ExitReason.takeProfit
            ∨ exitDecision cfg i price exitSig t = ExitReason.stopLoss
            ∨ exitDecision cfg i price exitSig t = ExitReason.maxHoldingPeriod)
          → exitDecision { cfg with minHolding := m } i price exitSig t
              = exitDecision cfg i price exitSig t) := by
  intro cfg i price exitSig t
  refine ⟨?_, ?_, ?_, ?_, ?_, ?_, ?_, ?_, ?_, ?_,
    fun m hd => exitDecision_minHolding_irrelevant cfg m i price exitSig t hd⟩ <;>
    · simp only [exitDecision, tpCond, slCond, mhCond, esCond]
      split_ifs <;> simp_all

/-- C6 witness: with `minHolding = 3` and a favourable 50% move at
holding period 1, the decision is take-profit (so a TP exit fires below
the minimum holding period). -/
theorem c6_exit_rule_order_witness :
    exitDecision cfgC6w 1 150 0 tC6w = ExitReason.takeProfit :=
  (c6_exit_rule_order cfgC6w 1 150 0 tC6w).1
    (by constructor <;> norm_num [cfgC6w, tC6w, pricePctOf, isLongTrade])

/-- C5 amended: on a `same_bar_trade` bar the engine runs Exit then
Entry, and runs the second Exit pass exactly when the entry processor
reported an entry and the bar's exit signal is non-zero; in that case
the bar behaves as the unconditional Exit-Entry-Exit bar of the spec,
otherwise as a plain Exit-then-Entry bar. -/
theorem c5_second_pass_amended :
    ∀ (cfg : Config) (i : Nat) (price : ℚ) (entrySig exitSig : Int) (s : LoopState),
      cfg.signalPriority = SignalPriorityMode.sameBarTrade →
      barStep cfg i price entrySig exitSig s =
        if (processEntrySignals cfg i price entrySig
              (processExitSignals cfg i price exitSig
                (s.openTrades.map (markToMarket price)) s.capital).1
              (processExitSignals cfg i price exitSig
                (s.openTrades.map (markToMarket price)) s.capital).2.2.1).2.2 = true
            ∧ ¬(exitSig = 0) then
          barStepSameBarSpec cfg i price entrySig exitSig s
        else barStepExitThenEntry cfg i price entrySig exitSig s := by
  intro cfg i price entrySig exitSig s h
  simp only [barStep, barStepSameBarSpec, barStepExitThenEntry, h]
  split_ifs <;> simp_all [List.append_assoc]

/-- C5 witness: the spec scenario S5 bar (entry and exit signal on the
same bar, no costs) instantiates the amended theorem. -/
theorem c5_second_pass_amended_witness :
    barStep cfgC5w 1 110 1 (-1) ⟨1000, [], []⟩ =
      if (processEntrySignals cfgC5w 1 110 1
            (processExitSignals cfgC5w 1 110 (-1)
              ((⟨1000, [], []⟩ : LoopState).openTrades.map (markToMarket 110))
              (⟨1000, [], []⟩ : LoopState).capital).1
            (processExitSignals cfgC5w 1 110 (-1)
              ((⟨1000, [], []⟩ : LoopState).openTrades.map (markToMarket 110))
              (⟨1000, [], []⟩ : LoopState).capital).2.2.1).2.2 = true
          ∧ ¬((-1 : Int) = 0) then
        barStepSameBarSpec cfgC5w 1 110 1 (-1) ⟨1000, [], []⟩
      else barStepExitThenEntry cfgC5w 1 110 1 (-1) ⟨1000, [], []⟩ :=
  c5_second_pass_amended cfgC5w 1 110 1 (-1) ⟨1000, [], []⟩ rfl

/-- C10: whenever the entry signal is `±1`, the direction is permitted
by the trade-type filter and the open-position count is below the cap,
the entry processor reports `hasEntered = true` — even when
`capital * position_size_pct ≤ 0`, in which case no position is created
and capital is untouched; and on a `same_bar_trade` bar with a non-zero
exit signal this report alone is what routes the bar through the second
exit pass. -/
theorem c10_entry_reported :
    ∀ (cfg : Config) (i : Nat) (price : ℚ) (entrySig : Int) (openT : List Trade) (cap : ℚ),
      (entrySig = 1 ∨ entrySig = -1) →
      ((cfg.tradeType = TradeType.long ∧ entrySig = 1)
        ∨ (cfg.tradeType = TradeType.short ∧ ¬(entrySig = 1))
        ∨ cfg.tradeType = TradeType.longShort) →
      (cfg.maxPositions = 0 ∨ openT.length < cfg.maxPositions) →
      (processEntrySignals cfg i price entrySig openT cap).2.2 = true
      ∧ (cap * cfg.eachTrade ≤ 0 →
          (processEntrySignals cfg i price entrySig openT cap).1 = openT
          ∧ (processEntrySignals cfg i price entrySig openT cap).2.1 = cap)
      ∧ (∀ (exitSig : Int) (s : LoopState) (closedNew : List Trade) (b : Bool),
          cfg.signalPriority = SignalPriorityMode.sameBarTrade → ¬(exitSig = 0) →
          processExitSignals cfg i price exitSig (s.openTrades.map (markToMarket price))
              s.capital = (openT, closedNew, cap, b) →
          (barStep cfg i price entrySig exitSig s).1.openTrades =
            (processExitSignals cfg i price exitSig
              (processEntrySignals cfg i price entrySig openT cap).1
              (processEntrySignals cfg i price entrySig openT cap).2.1).1) := by
  intro cfg i price entrySig openT cap h1 h2 h3
  have hEnt : (processEntrySignals cfg i price entrySig openT cap).2.2 = true := by
    simp only [processEntrySignals]
    rw [if_pos ⟨h3, h1⟩, if_pos h2]
    split_ifs <;> rfl
  refine ⟨hEnt, ?_, ?_⟩
  · intro hle
    simp only [processEntrySignals]
    rw [if_pos ⟨h3, h1⟩, if_pos h2, if_neg (not_lt.mpr hle)]
    exact ⟨rfl, rfl⟩
  · intro exitSig s closedNew b hpr hx hexit
    simp only [barStep, hpr, hexit, hEnt, hx, or_true, if_true, not_false_iff, and_true,
      true_and, eq_self_iff_true, and_self]

/-- C10 witness: with zero capital, a permitted long entry signal is
reported but creates no position, and the `same_bar_trade` bar with exit
signal `-1` routes through the second exit pass. -/
theorem c10_entry_reported_witness :
    (processEntrySignals cfgC10 0 100 1 [] 0).2.2 = true
      ∧ (processEntrySignals cfgC10 0 100 1 [] 0).1 = []
      ∧ (barStep cfgC10 0 100 1 (-1) ⟨0, [], []⟩).1.openTrades =
          (processExitSignals cfgC10 0 100 (-1)
            (processEntrySignals cfgC10 0 100 1 [] 0).1
            (processEntrySignals cfgC10 0 100 1 [] 0).2.1).1 := by
  have h := c10_entry_reported cfgC10 0 100 1 [] 0 (Or.inl rfl)
    (Or.inl ⟨rfl, rfl⟩) (Or.inl rfl)
  refine ⟨h.1, (h.2.1 ?_).1, h.2.2 (-1) ⟨0, [], []⟩ [] false rfl ?_ ?_⟩
  · norm_num [cfgC10]
  · norm_num
  · rfl

/-- C2 witness: the amended theorem instantiated on the negative-capital
run. -/
theorem c2_amended_no_force_exit_witness :
    noForceExitSurfaced (runSingleBacktest cfgC2 [100, 300] [-1, 0] [0, 1]) :=
  c2_amended_no_force_exit cfgC2 [100, 300] [-1, 0] [0, 1]

/-- C4 witness: the out-of-range result instantiated at a concrete
configuration. -/
theorem c4_empty_series_witness :
    runSingleBacktest cfgC4 [] [] [] = Option.none :=
  c4_empty_series_out_of_range cfgC4

/-- C7 witness: the amended theorem instantiated on the scenario S1 run. -/
theorem c7_amended_string_surface_witness :
    ledgerOk (runSingleBacktest cfgC7 [100, 110] [1, 0] [0, -1]) :=
  c7_amended_string_surface cfgC7 [100, 110] [1, 0] [0, -1]

/-- C9 witness: the capital identity instantiated on the scenario S4 run
at the final bar. -/
theorem c9_capital_identity_witness :
    capitalIdentity (runSingleBacktest cfgC9 [100, 90] [-1, 0] [0, 1]) 1 :=
  c9_capital_identity cfgC9 [100, 90] [-1, 0] [0, 1] 1

end Backtest
